import Mathlib

/-!
Verification of the change-driven keyword-to-tag synchronization engine in
`bridge_keywords_to_tags.py`.  The Python functions are embedded shallowly:
the external tools (exiftool, xattr, fswatch, the filesystem) are replaced by
explicit inputs describing their observable outcomes, and each Python function
becomes a Lean function over those inputs.  Python sets of strings become
`Finset String`; Python `str.lower` becomes the character-wise `lowerStr`.
-/

/-- Values of the `Subject` and `Keywords` fields in the JSON object produced by
`exiftool -json -Subject -Keywords -HierarchicalSubject <file>`.  A JSON value may
be a list or a single scalar; `get_xmp_keywords` stringifies every item, so each
field is modelled as the optional list of collected strings (`none` = field absent
from the JSON object). -/
structure Metadata where
  subject : Option (List String)
  keywords : Option (List String)
deriving DecidableEq

/-- Observable outcome of the `exiftool` subprocess call in `get_xmp_keywords`
(lines 78-116): a non-zero exit (`subprocess.CalledProcessError`), unparseable
stdout (`json.JSONDecodeError` / `KeyError`), an empty JSON array (`if not data`),
or a parsed metadata object `data[0]`. -/
inductive ExifOutcome
  | toolError
  | parseError
  | noData
  | ok (m : Metadata)
deriving DecidableEq

/-- Keywords contributed by one metadata field: each item of a present field is
added to the working set (lines 99-106). -/
def collectField : Option (List String) → Finset String
  | none => ∅
  | some l => l.toFinset

/-- Embedding of `get_xmp_keywords` (lines 76-116).  On any failure it returns the
empty set (the code returns `[]`); on success it unions the `Subject` and
`Keywords` fields (`HierarchicalSubject` is deliberately ignored, lines 96-99).
The `strip_prefixes` argument is accepted and, exactly as in the source, never
used by the body. -/
def get_xmp_keywords (res : ExifOutcome) (strip_prefixes : Bool) : Finset String :=
  match res with
  | .toolError => ∅
  | .parseError => ∅
  | .noData => ∅
  | .ok m => collectField m.subject ∪ collectField m.keywords

/-- Character-wise lower-casing, the embedding of Python `str.lower()` as applied
to the ASCII keyword/marker strings the script compares (line 261). -/
def lowerStr (s : String) : String := String.mk (s.toList.map Char.toLower)

/-- State of the `com.apple.metadata:_kMDItemUserTags` extended attribute of one
file: `none` when the attribute is absent, otherwise the set of plist strings it
stores.  (The attribute holds a plist list built from a Python set, so a `Finset`
of the stored strings is the faithful observable state.) -/
abbrev TagAttr := Option (Finset String)

/-- Embedding of the formatting `f"{tag}\n0"` applied before writing
(`set_finder_tags`, line 210). -/
def formatTag (t : String) : String := t ++ "\n0"

/-- Embedding of `tag.split('\n')[0]` applied when reading
(`get_finder_tags`, line 193): the prefix of the stored string before the first
newline. -/
def parseTag (s : String) : String := String.mk (s.toList.takeWhile fun c => c != '\n')

/-- Embedding of `get_finder_tags` (lines 182-195): an absent attribute (the
`xattr -p` call fails) reads as no tags; otherwise every stored plist string is
parsed with `parseTag`. -/
def get_finder_tags : TagAttr → Finset String
  | none => ∅
  | some stored => stored.image parseTag

/-- Success/failure of the external `xattr` commands used by `set_finder_tags`:
`clearOk` is whether `xattr -d` succeeds, `writeOk` whether `xattr -wx` succeeds. -/
structure WriteEnv where
  clearOk : Bool
  writeOk : Bool
deriving DecidableEq

/-- One TagStore operation performed by the code, used to state frame conditions:
a `get_finder_tags` read, a non-empty `xattr -wx` write of the given tag set, or
an `xattr -d` clear. -/
inductive TagOp
  | read
  | write (tags : Finset String)
  | clear
deriving DecidableEq

/-- Result of `set_finder_tags`: the returned boolean, the new attribute state,
and which operation was attempted. -/
structure WriteResult where
  success : Bool
  attr : TagAttr
  op : TagOp
deriving DecidableEq

/-- Embedding of `set_finder_tags` (lines 198-226).  With an empty tag list the
code runs `xattr -d` with `check=False` and returns `True` unconditionally
(lines 201-208); otherwise it writes the formatted tags with `xattr -wx`
(`check=True`), returning `False` if that command fails (lines 219-226). -/
def set_finder_tags (env : WriteEnv) (attr : TagAttr) (tags : Finset String) : WriteResult :=
  if tags = ∅ then
    ⟨true, if env.clearOk then none else attr, TagOp.clear⟩
  else if env.writeOk then
    ⟨true, some (tags.image formatTag), TagOp.write tags⟩
  else
    ⟨false, attr, TagOp.write tags⟩

/-- The module-level configuration constants consumed by `process_file`:
`MARKER_KEYWORD` (line 53) and `STRIP_HIERARCHICAL_PREFIXES` (line 49). -/
structure Config where
  marker : Option String
  stripDefault : Bool
deriving DecidableEq

/-- The raw keyword set of a file: `get_xmp_keywords(file_path, strip_prefixes=False)`
(line 236). -/
def rawOf (exif : ExifOutcome) : Finset String := get_xmp_keywords exif false

/-- The marker gate of `process_file` (lines 244-251): with a configured marker
the file is skipped when the marker is not in the raw keyword list
(case-sensitive `in`). -/
def markerBlocks (cfg : Config) (raw : Finset String) : Bool :=
  match cfg.marker with
  | none => false
  | some m => if m ∈ raw then false else true

/-- The keyword set used for tagging before marker removal (lines 253-257): the
code re-invokes `get_xmp_keywords` when the requested strip setting differs from
the module default, otherwise reuses the raw keywords. -/
def keywordsFetched (cfg : Config) (exif : ExifOutcome) (sp : Bool) : Finset String :=
  if sp ≠ cfg.stripDefault then get_xmp_keywords exif sp else rawOf exif

/-- Marker removal (lines 259-261): with a configured marker, keywords equal to it
under case-insensitive comparison are filtered out. -/
def removeMarker (cfg : Config) (ks : Finset String) : Finset String :=
  match cfg.marker with
  | none => ks
  | some m => ks.filter fun k => ¬ lowerStr k = lowerStr m

/-- The EffectiveKeywordSet a file contributes once the gate has passed: raw
keywords with the marker removed. -/
def effectiveOf (cfg : Config) (exif : ExifOutcome) : Finset String :=
  removeMarker cfg (rawOf exif)

/-- Result of `process_file`: the returned `(success, keywords)` pair, the final
attribute state of the file, and the TagStore operations performed. -/
structure ProcResult where
  success : Bool
  keywords : Finset String
  attr : TagAttr
  ops : List TagOp
deriving DecidableEq

/-- The tail of `process_file` after keyword normalization (lines 269-279): in
merge mode read the current tags and write the union, otherwise write the
keywords as-is; in a dry run stop before writing (the merge-mode read still
happens first, as in the source). -/
def reconcile (env : WriteEnv) (attr : TagAttr) (dry_run merge : Bool) (kw : Finset String) :
    ProcResult :=
  if merge then
    if dry_run then ⟨true, kw, attr, [TagOp.read]⟩
    else
      ⟨(set_finder_tags env attr (get_finder_tags attr ∪ kw)).success, kw,
        (set_finder_tags env attr (get_finder_tags attr ∪ kw)).attr,
        [TagOp.read, (set_finder_tags env attr (get_finder_tags attr ∪ kw)).op]⟩
  else
    if dry_run then ⟨true, kw, attr, []⟩
    else
      ⟨(set_finder_tags env attr kw).success, kw, (set_finder_tags env attr kw).attr,
        [(set_finder_tags env attr kw).op]⟩

/-- Embedding of `process_file` (lines 229-279), in order: the empty-raw-keyword
early return (lines 238-241), the marker gate (lines 244-251), the conditional
re-fetch (lines 253-257), marker removal with the merge-mode
nothing-left-but-marker skip (lines 259-267), then reconciliation (lines 269-279). -/
def process_file (cfg : Config) (exif : ExifOutcome) (env : WriteEnv) (attr : TagAttr)
    (dry_run merge sp : Bool) : ProcResult :=
  if rawOf exif = ∅ then ⟨true, ∅, attr, []⟩
  else if markerBlocks cfg (rawOf exif) then ⟨true, ∅, attr, []⟩
  else if cfg.marker.isSome = true ∧ removeMarker cfg (keywordsFetched cfg exif sp) = ∅ ∧
      merge = true then ⟨true, ∅, attr, []⟩
  else reconcile env attr dry_run merge (removeMarker cfg (keywordsFetched cfg exif sp))

/-- Per-file inputs of one iteration of the `process_folder` walk: the exiftool
outcome, the file's current tag attribute, and the xattr command outcomes. -/
structure FileInput where
  exif : ExifOutcome
  attr : TagAttr
  env : WriteEnv
deriving DecidableEq

/-- The three counters accumulated by `process_folder` (lines 321-323). -/
structure FolderStats where
  processed : Nat
  tagged : Nat
  errors : Nat
deriving DecidableEq

/-- Embedding of the `process_folder` loop over the supported non-sidecar files it
visits (lines 325-351), written as structural recursion over the list of visited
files: each file is processed, `errors` counts files whose `process_file` returned
`False`, and `tagged` counts successful files that reported keywords
(lines 342-347). -/
def process_folder (cfg : Config) (dry_run merge sp : Bool) : List FileInput → FolderStats
  | [] => ⟨0, 0, 0⟩
  | f :: rest =>
    let r := process_file cfg f.exif f.env f.attr dry_run merge sp
    let s := process_folder cfg dry_run merge sp rest
    ⟨s.processed + 1,
      s.tagged + (if r.success = true ∧ r.keywords ≠ ∅ then 1 else 0),
      s.errors + (if r.success = true then 0 else 1)⟩

/-- Splitting a character list at every occurrence of a separator, the list-level
semantics of Python `str.split(sep)` for a one-character separator. -/
def splitChars (sep : Char) : List Char → List (List Char)
  | [] => [[]]
  | c :: cs =>
    match splitChars sep cs with
    | [] => [[]]
    | h :: t => if c = sep then [] :: h :: t else (c :: h) :: t

/-- Python `s.split(sep)` for a one-character separator. -/
def splitStr (sep : Char) (s : String) : List String :=
  (splitChars sep s.toList).map String.mk

/-- Modelled from the spec: the prefix-reduction step of the KeywordNormalizer,
which is absent from the source.  Each entry containing a `|` separator is
replaced by the substring after the last `|`; entries without the separator pass
through unchanged, and duplicates collapse (`Finset.image`). -/
def leafReduce (ks : Finset String) : Finset String :=
  ks.image fun k => (splitStr '|' k).getLastD k

/-- The `SUPPORTED_EXTENSIONS` set (lines 58-64). -/
def SUPPORTED_EXTENSIONS : List String :=
  [".jpg", ".jpeg", ".png", ".tiff", ".tif", ".gif", ".bmp",
   ".psd", ".ai", ".eps", ".pdf",
   ".raw", ".cr2", ".cr3", ".nef", ".arw", ".orf", ".rw2", ".dng",
   ".mov", ".mp4", ".avi", ".mkv",
   ".xmp"]

/-- Python `PurePath.suffix` of a path component: the extension `.ext` of `name`
when the last dot sits strictly inside the name (neither leading nor trailing),
otherwise the empty string. -/
def nameSuffix (name : String) : String :=
  let cs := name.toList
  let revAfter := cs.reverse.takeWhile fun c => c != '.'
  if revAfter.length = cs.length then ""
  else if 0 < cs.length - revAfter.length - 1 ∧ revAfter ≠ [] then
    String.mk ('.' :: revAfter.reverse)
  else ""

/-- Python `Path(p).suffix`: the suffix of the final path component. -/
def pathSuffix (p : String) : String :=
  nameSuffix ((splitStr '/' p).getLastD "")

/-- One fswatch notification as observed by the watch loop (lines 682-707): the
reported path, whether the path still exists, and the outcome of `stat()`
(`none` = `OSError`). -/
structure Notification where
  path : String
  pathExists : Bool
  mtime : Option Nat

/-- The mutable state of the event batcher inside `watch_directories`
(lines 628-633): the `last_processed` modification-time watermark map (a dict
read with default `0`, line 699), the `pending_files` set, and
`last_event_time`. -/
structure WatchState where
  last_processed : String → Nat
  pending_files : Finset String
  last_event_time : Option Nat

/-- Embedding of one iteration of the notification-consuming branch of the watch
loop (lines 686-711): unsupported extensions are dropped, vanished paths are
dropped, a `stat` failure is dropped, a notification whose modification time
equals a positive recorded watermark is dropped as a duplicate (lines 698-703),
and otherwise the watermark is updated and the path joins the pending batch. -/
def batcherStep (st : WatchState) (n : Notification) (now : Nat) : WatchState :=
  if lowerStr (pathSuffix n.path) ∉ SUPPORTED_EXTENSIONS then st
  else if n.pathExists = false then st
  else
    match n.mtime with
    | none => st
    | some m =>
      if 0 < st.last_processed n.path ∧ m = st.last_processed n.path then st
      else
        { last_processed := fun q => if q = n.path then m else st.last_processed q
          pending_files := insert n.path st.pending_files
          last_event_time := some now }

/-- A string free of newline characters. -/
def noNL (t : String) : Prop := '\n' ∉ t.toList

instance (t : String) : Decidable (noNL t) := by unfold noNL; infer_instance

theorem toList_append (a b : String) : (a ++ b).toList = a.toList ++ b.toList := by
  cases a; cases b; rfl

theorem mk_toList (s : String) : String.mk s.toList = s := rfl

theorem takeWhile_nl (l : List Char) (h : '\n' ∉ l) :
    (l ++ ['\n', '0']).takeWhile (fun c => c != '\n') = l := by
  induction l with
  | nil => rfl
  | cons c cs ih =>
    simp only [List.mem_cons, not_or] at h
    simp only [List.cons_append, List.takeWhile_cons]
    have hc : (c != '\n') = true := by
      simp only [bne_iff_ne, ne_eq]
      exact fun he => h.1 he.symm
    rw [hc]
    simp only [if_true]
    rw [ih h.2]

theorem parse_format (t : String) (h : noNL t) : parseTag (formatTag t) = t := by
  unfold parseTag formatTag
  rw [toList_append]
  have h2 : ("\n0" : String).toList = ['\n', '0'] := rfl
  rw [h2, takeWhile_nl t.toList h, mk_toList]

theorem noNL_parseTag (s : String) : noNL (parseTag s) := by
  unfold noNL parseTag
  intro hmem
  have := List.mem_takeWhile_imp hmem
  simp at this

theorem roundTrip (X : Finset String) (h : ∀ t ∈ X, noNL t) :
    (X.image formatTag).image parseTag = X := by
  rw [Finset.image_image]
  have : Finset.image (parseTag ∘ formatTag) X = Finset.image id X :=
    Finset.image_congr fun t ht => parse_format t (h t ht)
  rw [this, Finset.image_id]

theorem noNL_tags (attr : TagAttr) : ∀ t ∈ get_finder_tags attr, noNL t := by
  cases attr with
  | none => intro t ht; simp [get_finder_tags] at ht
  | some s =>
    intro t ht
    rw [get_finder_tags, Finset.mem_image] at ht
    obtain ⟨x, -, rfl⟩ := ht
    exact noNL_parseTag x

theorem read_after_write (env : WriteEnv) (attr : TagAttr) (X : Finset String)
    (hw : env.writeOk = true) (hX : X ≠ ∅) (h : ∀ t ∈ X, noNL t) :
    get_finder_tags (set_finder_tags env attr X).attr = X := by
  unfold set_finder_tags
  rw [if_neg hX]
  simp only [hw, if_true]
  exact roundTrip X h

theorem keywordsFetched_eq (cfg : Config) (exif : ExifOutcome) (sp : Bool) :
    keywordsFetched cfg exif sp = rawOf exif := by
  unfold keywordsFetched
  split <;> rfl

theorem process_file_skip_raw (cfg : Config) (exif : ExifOutcome) (env : WriteEnv)
    (attr : TagAttr) (dry_run merge sp : Bool) (hraw : rawOf exif = ∅) :
    process_file cfg exif env attr dry_run merge sp = ⟨true, ∅, attr, []⟩ := by
  unfold process_file
  rw [if_pos hraw]

theorem process_file_skip_marker (cfg : Config) (exif : ExifOutcome) (env : WriteEnv)
    (attr : TagAttr) (dry_run merge sp : Bool)
    (hblk : markerBlocks cfg (rawOf exif) = true) :
    process_file cfg exif env attr dry_run merge sp = ⟨true, ∅, attr, []⟩ := by
  unfold process_file
  by_cases hraw : rawOf exif = ∅
  · rw [if_pos hraw]
  · rw [if_neg hraw, if_pos hblk]

theorem process_file_skip_empty_merge (cfg : Config) (exif : ExifOutcome) (env : WriteEnv)
    (attr : TagAttr) (dry_run sp : Bool)
    (hblk : markerBlocks cfg (rawOf exif) = false)
    (hsome : cfg.marker.isSome = true) (heff : effectiveOf cfg exif = ∅) :
    process_file cfg exif env attr dry_run true sp = ⟨true, ∅, attr, []⟩ := by
  unfold process_file
  rw [keywordsFetched_eq]
  by_cases hraw : rawOf exif = ∅
  · rw [if_pos hraw]
  · rw [if_neg hraw, if_neg (by simp [hblk]),
      if_pos (⟨hsome, heff, rfl⟩ :
        cfg.marker.isSome = true ∧ removeMarker cfg (rawOf exif) = ∅ ∧ true = true)]

theorem process_file_run (cfg : Config) (exif : ExifOutcome) (env : WriteEnv)
    (attr : TagAttr) (dry_run merge sp : Bool)
    (hraw : rawOf exif ≠ ∅)
    (hblk : markerBlocks cfg (rawOf exif) = false)
    (hskip : ¬ (cfg.marker.isSome = true ∧ effectiveOf cfg exif = ∅ ∧ merge = true)) :
    process_file cfg exif env attr dry_run merge sp
      = reconcile env attr dry_run merge (effectiveOf cfg exif) := by
  unfold process_file
  rw [keywordsFetched_eq]
  rw [if_neg hraw, if_neg (by simp [hblk]),
    if_neg (show ¬ (cfg.marker.isSome = true ∧ removeMarker cfg (rawOf exif) = ∅ ∧
      merge = true) from hskip)]
  rfl

/-- The xattr environment in which both commands succeed. -/
def envOk : WriteEnv := ⟨true, true⟩

/-- The shipped configuration: `MARKER_KEYWORD = "sync"`,
`STRIP_HIERARCHICAL_PREFIXES = True`. -/
def cfgSync : Config := ⟨some "sync", true⟩

/-- A configuration with no marker keyword and stripping enabled. -/
def cfgNoMarker : Config := ⟨none, true⟩

/-- C1: scenario A (marker "sync", strip enabled, merge mode, raw keywords
{"sync", "Animals|Cat", "Red"}, existing tags {"Blue"}).  The code never
applies the prefix reduction, so the final tag set is
{"Blue", "Animals|Cat", "Red"} while the specified normalization would give
{"Blue", "Cat", "Red"}. -/
theorem strip_reduction_never_applied :
    get_finder_tags (process_file cfgSync (.ok ⟨some ["sync", "Animals|Cat", "Red"], none⟩)
        envOk (some {"Blue\n0"}) false true true).attr
      = {"Blue", "Animals|Cat", "Red"}
  ∧ ({"Blue"} : Finset String) ∪
      leafReduce (effectiveOf cfgSync (.ok ⟨some ["sync", "Animals|Cat", "Red"], none⟩))
      = {"Blue", "Cat", "Red"}
  ∧ ({"Blue", "Animals|Cat", "Red"} : Finset String) ≠ {"Blue", "Cat", "Red"} := by decide

/-- C6: with a configured marker keyword absent (case-sensitively) from the raw
keyword set, `process_file` returns success with no keywords, leaves the tag
attribute untouched and performs no TagStore operation, in every mode. -/
theorem marker_gate_no_tag_ops (cfg : Config) (exif : ExifOutcome) (env : WriteEnv)
    (attr : TagAttr) (dry_run merge sp : Bool) (m : String)
    (hm : cfg.marker = some m) (habs : m ∉ rawOf exif) :
    process_file cfg exif env attr dry_run merge sp = ⟨true, ∅, attr, []⟩ := by
  by_cases hraw : rawOf exif = ∅
  · exact process_file_skip_raw cfg exif env attr dry_run merge sp hraw
  · refine process_file_skip_marker cfg exif env attr dry_run merge sp ?_
    unfold markerBlocks
    rw [hm]
    simp [habs]

/-- Witness for `marker_gate_no_tag_ops`: marker "sync" absent from raw keywords
{"Red"} leaves the {"Blue"} tags untouched in replace mode. -/
theorem marker_gate_no_tag_ops_witness :
    cfgSync.marker = some "sync"
  ∧ "sync" ∉ rawOf (.ok ⟨some ["Red"], none⟩)
  ∧ process_file cfgSync (.ok ⟨some ["Red"], none⟩) envOk (some {"Blue\n0"}) false false true
      = ⟨true, ∅, some {"Blue\n0"}, []⟩ :=
  ⟨rfl, by decide, marker_gate_no_tag_ops cfgSync (.ok ⟨some ["Red"], none⟩) envOk
    (some {"Blue\n0"}) false false true "sync" rfl (by decide)⟩

/-- C10: clearing a file's tags always reports success, and it does so even when
the underlying `xattr -d` command fails (in which case the attribute is left in
place), so a failed clear is never surfaced. -/
theorem clear_tags_always_reports_success (env : WriteEnv) (attr : TagAttr) :
    (set_finder_tags env attr ∅).success = true
  ∧ (set_finder_tags ⟨false, env.writeOk⟩ attr ∅).attr = attr := by
  constructor
  · simp [set_finder_tags]
  · simp [set_finder_tags]

/-- Number of mutating TagStore operations (writes and clears) in an operation
trace. -/
def countWrites (ops : List TagOp) : Nat :=
  ops.countP fun o => match o with | .read => false | _ => true

/-- C2 counterexample: with raw keywords {"Red"}, no marker, merge mode and
current tags already {"Red"}, the union equals the current tags, yet each of two
consecutive applications still performs a tag write, so two writes happen where
the claim allows at most one. -/
theorem merge_has_no_idempotence_fastpath :
    get_finder_tags (some {"Red\n0"} : TagAttr)
        ∪ effectiveOf cfgNoMarker (.ok ⟨some ["Red"], none⟩)
      = get_finder_tags (some {"Red\n0"} : TagAttr)
  ∧ countWrites (process_file cfgNoMarker (.ok ⟨some ["Red"], none⟩) envOk
        (some {"Red\n0"}) false true true).ops
    + countWrites (process_file cfgNoMarker (.ok ⟨some ["Red"], none⟩) envOk
        (process_file cfgNoMarker (.ok ⟨some ["Red"], none⟩) envOk
          (some {"Red\n0"}) false true true).attr false true true).ops = 2 := by decide

/-- C3 counterexample: a file with no raw keywords at all, processed in replace
mode with prior tags {"Blue"}, is skipped with no TagStore operation — its tags
are not cleared, contradicting the claim for the empty-raw-keyword case. -/
theorem empty_raw_replace_does_not_clear :
    process_file cfgNoMarker (.ok ⟨none, none⟩) envOk (some {"Blue\n0"}) false false true
      = ⟨true, ∅, some {"Blue\n0"}, []⟩
  ∧ get_finder_tags (some {"Blue\n0"} : TagAttr) = {"Blue"} := by decide

/-- C7 counterexample: raw keywords {"sync", "Red"} with marker "sync", merge
mode, and a pre-existing Finder tag "sync": the tag set written by the merge is
{"sync", "Red"}, which still contains the marker keyword. -/
theorem merged_write_can_contain_marker :
    "sync" ∈ rawOf (.ok ⟨some ["sync", "Red"], none⟩)
  ∧ cfgSync.marker = some "sync"
  ∧ TagOp.write {"sync", "Red"} ∈ (process_file cfgSync (.ok ⟨some ["sync", "Red"], none⟩)
      envOk (some {"sync\n0"}) false true true).ops
  ∧ "sync" ∈ get_finder_tags (process_file cfgSync (.ok ⟨some ["sync", "Red"], none⟩)
      envOk (some {"sync\n0"}) false true true).attr := by decide

/-- C8 counterexample: a folder batch of two files where the first file's
metadata read fails (exiftool exits non-zero) and the second has keyword "Red":
both files are processed (the batch continues) and the second is tagged, but the
error counter stays 0 — the metadata read failure is not counted as an error. -/
theorem metadata_failure_not_counted :
    process_folder cfgNoMarker false true true
        [⟨.toolError, some {"Blue\n0"}, envOk⟩, ⟨.ok ⟨some ["Red"], none⟩, none, envOk⟩]
      = ⟨2, 1, 0⟩ := by decide

/-- C8 amended: a failed metadata read makes `process_file` report success with
no keywords and no TagStore operation, and in a folder walk such a file adds one
to the processed count while leaving the tagged and error counters unchanged and
letting the remaining files be processed as before. -/
theorem metadata_failure_skips_silently (cfg : Config) (env : WriteEnv) (attr : TagAttr)
    (dry_run merge sp : Bool) :
    process_file cfg .toolError env attr dry_run merge sp = ⟨true, ∅, attr, []⟩
  ∧ ∀ files : List FileInput,
      process_folder cfg dry_run merge sp (⟨.toolError, attr, env⟩ :: files)
        = ⟨(process_folder cfg dry_run merge sp files).processed + 1,
            (process_folder cfg dry_run merge sp files).tagged,
            (process_folder cfg dry_run merge sp files).errors⟩ := by
  have h1 : process_file cfg .toolError env attr dry_run merge sp = ⟨true, ∅, attr, []⟩ :=
    process_file_skip_raw cfg .toolError env attr dry_run merge sp rfl
  refine ⟨h1, fun files => ?_⟩
  show process_folder cfg dry_run merge sp (⟨.toolError, attr, env⟩ :: files) = _
  rw [process_folder.eq_def]
  simp only [h1]
  simp

/-- C9: a notification for a supported, existing path whose modification time
equals the positive watermark recorded for that path is discarded: after a first
notification registers the path in the pending batch, replaying the identical
notification leaves the batcher state unchanged, so the path has a single batch
entry and is reconciled once. -/
theorem duplicate_notification_discarded (st : WatchState) (p : String) (m t1 t2 : Nat)
    (hsupp : lowerStr (pathSuffix p) ∈ SUPPORTED_EXTENSIONS)
    (hm : 0 < m) (hfresh : st.last_processed p ≠ m) :
    batcherStep (batcherStep st ⟨p, true, some m⟩ t1) ⟨p, true, some m⟩ t2
      = batcherStep st ⟨p, true, some m⟩ t1
  ∧ p ∈ (batcherStep st ⟨p, true, some m⟩ t1).pending_files := by
  have hnn : ¬ lowerStr (pathSuffix p) ∉ SUPPORTED_EXTENSIONS := fun hc => hc hsupp
  have hstep : batcherStep st ⟨p, true, some m⟩ t1 =
      { last_processed := fun q => if q = p then m else st.last_processed q
        pending_files := insert p st.pending_files
        last_event_time := some t1 } := by
    unfold batcherStep
    rw [if_neg hnn, if_neg (by simp)]
    exact if_neg fun hc => hfresh hc.2.symm
  refine ⟨?_, ?_⟩
  · rw [hstep]
    unfold batcherStep
    rw [if_neg hnn, if_neg (by simp)]
    exact if_pos (by simp [hm])
  · rw [hstep]
    exact Finset.mem_insert_self p st.pending_files

/-- Witness for `duplicate_notification_discarded` at the initial batcher state
and a concrete supported path. -/
theorem duplicate_notification_discarded_witness :
    lowerStr (pathSuffix "/photos/cat.JPG") ∈ SUPPORTED_EXTENSIONS
  ∧ (0 : Nat) < 5
  ∧ (fun _ : String => 0) "/photos/cat.JPG" ≠ 5
  ∧ (batcherStep (batcherStep ⟨fun _ => 0, ∅, none⟩ ⟨"/photos/cat.JPG", true, some 5⟩ 10)
        ⟨"/photos/cat.JPG", true, some 5⟩ 11
      = batcherStep ⟨fun _ => 0, ∅, none⟩ ⟨"/photos/cat.JPG", true, some 5⟩ 10
    ∧ "/photos/cat.JPG" ∈ (batcherStep ⟨fun _ => 0, ∅, none⟩
        ⟨"/photos/cat.JPG", true, some 5⟩ 10).pending_files) :=
  ⟨by decide, by decide, by decide,
    duplicate_notification_discarded ⟨fun _ => 0, ∅, none⟩ "/photos/cat.JPG" 5 10 11
      (by decide) (by decide) (by decide)⟩

theorem sft_empty (env : WriteEnv) (attr : TagAttr) :
    set_finder_tags env attr ∅
      = ⟨true, if env.clearOk then none else attr, TagOp.clear⟩ := by
  simp [set_finder_tags]

theorem sft_write (env : WriteEnv) (attr : TagAttr) (X : Finset String)
    (hX : X ≠ ∅) (hw : env.writeOk = true) :
    set_finder_tags env attr X = ⟨true, some (X.image formatTag), TagOp.write X⟩ := by
  simp [set_finder_tags, hX, hw]

theorem sft_fail (env : WriteEnv) (attr : TagAttr) (X : Finset String)
    (hX : X ≠ ∅) (hw : env.writeOk = false) :
    set_finder_tags env attr X = ⟨false, attr, TagOp.write X⟩ := by
  simp [set_finder_tags, hX, hw]

theorem sft_op (env : WriteEnv) (attr : TagAttr) (X : Finset String) :
    (set_finder_tags env attr X).op = if X = ∅ then TagOp.clear else TagOp.write X := by
  by_cases h : X = ∅
  · simp [set_finder_tags, h]
  · by_cases hw : env.writeOk = true <;> simp [set_finder_tags, h, hw]

theorem removeMarker_none (cfg : Config) (h : cfg.marker = none) (ks : Finset String) :
    removeMarker cfg ks = ks := by
  unfold removeMarker
  rw [h]

theorem removeMarker_some (cfg : Config) (m : String) (h : cfg.marker = some m)
    (ks : Finset String) :
    removeMarker cfg ks = ks.filter fun k => ¬ lowerStr k = lowerStr m := by
  unfold removeMarker
  rw [h]

theorem removeMarker_empty (cfg : Config) : removeMarker cfg ∅ = ∅ := by
  unfold removeMarker
  rcases cfg.marker with _ | m <;> simp

theorem reconcile_merge (env : WriteEnv) (attr : TagAttr) (kw : Finset String) :
    reconcile env attr false true kw
      = ⟨(set_finder_tags env attr (get_finder_tags attr ∪ kw)).success, kw,
          (set_finder_tags env attr (get_finder_tags attr ∪ kw)).attr,
          [TagOp.read, (set_finder_tags env attr (get_finder_tags attr ∪ kw)).op]⟩ := rfl

theorem reconcile_replace (env : WriteEnv) (attr : TagAttr) (kw : Finset String) :
    reconcile env attr false false kw
      = ⟨(set_finder_tags env attr kw).success, kw, (set_finder_tags env attr kw).attr,
          [(set_finder_tags env attr kw).op]⟩ := rfl

theorem sft_idem (env : WriteEnv) (attr : TagAttr) (kw : Finset String) :
    set_finder_tags env (set_finder_tags env attr kw).attr kw
      = set_finder_tags env attr kw := by
  by_cases h0 : kw = ∅
  · subst h0
    rw [sft_empty, sft_empty]
    rcases Bool.eq_false_or_eq_true env.clearOk with hc | hc <;> simp [hc]
  · by_cases hw : env.writeOk = true
    · rw [sft_write env attr kw h0 hw]
      exact sft_write env _ kw h0 hw
    · have hw' : env.writeOk = false := by simpa using hw
      rw [sft_fail env attr kw h0 hw']
      exact sft_fail env _ kw h0 hw'

theorem sft_merge_stable (env : WriteEnv) (attr : TagAttr) (kw : Finset String)
    (hkw : ∀ k ∈ kw, noNL k) :
    set_finder_tags env (set_finder_tags env attr (get_finder_tags attr ∪ kw)).attr
        (get_finder_tags (set_finder_tags env attr (get_finder_tags attr ∪ kw)).attr ∪ kw)
      = set_finder_tags env attr (get_finder_tags attr ∪ kw) := by
  have hnlU : ∀ t ∈ get_finder_tags attr ∪ kw, noNL t := by
    intro t ht
    rcases Finset.mem_union.mp ht with h | h
    · exact noNL_tags attr t h
    · exact hkw t h
  by_cases hU : get_finder_tags attr ∪ kw = ∅
  · obtain ⟨hT, hk0⟩ := Finset.union_eq_empty.mp hU
    rw [hU, sft_empty]
    rcases Bool.eq_false_or_eq_true env.clearOk with hc | hc
    · rw [if_pos hc]
      rw [show get_finder_tags none = ∅ from rfl, Finset.empty_union, hk0, sft_empty,
        if_pos hc]
    · rw [if_neg (by simp [hc])]
      rw [hT, Finset.empty_union, hk0, sft_empty, if_neg (by simp [hc])]
  · by_cases hw : env.writeOk = true
    · rw [sft_write env attr _ hU hw]
      show set_finder_tags env (some ((get_finder_tags attr ∪ kw).image formatTag))
          (get_finder_tags (some ((get_finder_tags attr ∪ kw).image formatTag)) ∪ kw) = _
      have h1 : get_finder_tags (some ((get_finder_tags attr ∪ kw).image formatTag))
          = get_finder_tags attr ∪ kw := roundTrip _ hnlU
      rw [h1, Finset.union_assoc, Finset.union_self]
      exact sft_write env _ _ hU hw
    · have hw' : env.writeOk = false := by simpa using hw
      rw [sft_fail env attr _ hU hw']
      exact sft_fail env _ _ hU hw'

theorem reconcile_idem (env : WriteEnv) (attr : TagAttr) (merge : Bool) (kw : Finset String)
    (hkw : ∀ k ∈ kw, noNL k) :
    reconcile env (reconcile env attr false merge kw).attr false merge kw
      = reconcile env attr false merge kw := by
  cases merge with
  | false =>
    show reconcile env (set_finder_tags env attr kw).attr false false kw
        = reconcile env attr false false kw
    rw [reconcile_replace env _ kw, reconcile_replace env attr kw, sft_idem env attr kw]
  | true =>
    show reconcile env (set_finder_tags env attr (get_finder_tags attr ∪ kw)).attr false true kw
        = reconcile env attr false true kw
    rw [reconcile_merge env _ kw, reconcile_merge env attr kw,
      sft_merge_stable env attr kw hkw]

/-- C2 amended: running `process_file` a second time with the same inputs and the
file's tag state left by the first run reproduces the first result exactly — the
final tag attribute (and hence the final TagSet) is unchanged — but, as the
counterexample shows, each application performs its own write: there is no
union-equals-current fast path. -/
theorem process_file_idempotent (cfg : Config) (exif : ExifOutcome) (env : WriteEnv)
    (attr : TagAttr) (merge sp : Bool)
    (hnl : ∀ k ∈ effectiveOf cfg exif, noNL k) :
    process_file cfg exif env (process_file cfg exif env attr false merge sp).attr
        false merge sp
      = process_file cfg exif env attr false merge sp := by
  by_cases hraw : rawOf exif = ∅
  · rw [process_file_skip_raw cfg exif env attr false merge sp hraw]
    exact process_file_skip_raw cfg exif env _ false merge sp hraw
  · by_cases hblk : markerBlocks cfg (rawOf exif) = true
    · rw [process_file_skip_marker cfg exif env attr false merge sp hblk]
      exact process_file_skip_marker cfg exif env _ false merge sp hblk
    · have hblk' : markerBlocks cfg (rawOf exif) = false := by simpa using hblk
      by_cases hskip : cfg.marker.isSome = true ∧ effectiveOf cfg exif = ∅ ∧ merge = true
      · obtain ⟨h1, h2, h3⟩ := hskip
        subst h3
        rw [process_file_skip_empty_merge cfg exif env attr false sp hblk' h1 h2]
        exact process_file_skip_empty_merge cfg exif env _ false sp hblk' h1 h2
      · rw [process_file_run cfg exif env attr false merge sp hraw hblk' hskip]
        rw [process_file_run cfg exif env _ false merge sp hraw hblk' hskip]
        exact reconcile_idem env attr merge (effectiveOf cfg exif) hnl

/-- Witness for `process_file_idempotent` at scenario A's inputs. -/
theorem process_file_idempotent_witness :
    (∀ k ∈ effectiveOf cfgSync (.ok ⟨some ["sync", "Animals|Cat", "Red"], none⟩), noNL k)
  ∧ process_file cfgSync (.ok ⟨some ["sync", "Animals|Cat", "Red"], none⟩) envOk
      (process_file cfgSync (.ok ⟨some ["sync", "Animals|Cat", "Red"], none⟩) envOk
        (some {"Blue\n0"}) false true true).attr false true true
    = process_file cfgSync (.ok ⟨some ["sync", "Animals|Cat", "Red"], none⟩) envOk
        (some {"Blue\n0"}) false true true :=
  ⟨by decide, process_file_idempotent cfgSync (.ok ⟨some ["sync", "Animals|Cat", "Red"], none⟩)
    envOk (some {"Blue\n0"}) true true (by decide)⟩

/-- C5: in merge mode (with the marker gate passed, a succeeding write command
and newline-free keywords) the final TagSet is exactly the union of the prior
TagSet with the EffectiveKeywordSet, and in particular a superset of the prior
TagSet. -/
theorem merge_final_is_union (cfg : Config) (exif : ExifOutcome) (env : WriteEnv)
    (attr : TagAttr) (sp : Bool)
    (hw : env.writeOk = true)
    (hblk : markerBlocks cfg (rawOf exif) = false)
    (hnl : ∀ k ∈ effectiveOf cfg exif, noNL k) :
    get_finder_tags (process_file cfg exif env attr false true sp).attr
      = get_finder_tags attr ∪ effectiveOf cfg exif
  ∧ get_finder_tags attr
      ⊆ get_finder_tags (process_file cfg exif env attr false true sp).attr := by
  have hnlU : ∀ t ∈ get_finder_tags attr ∪ effectiveOf cfg exif, noNL t := by
    intro t ht
    rcases Finset.mem_union.mp ht with h | h
    · exact noNL_tags attr t h
    · exact hnl t h
  have hmain : get_finder_tags (process_file cfg exif env attr false true sp).attr
      = get_finder_tags attr ∪ effectiveOf cfg exif := by
    by_cases hraw : rawOf exif = ∅
    · rw [process_file_skip_raw cfg exif env attr false true sp hraw]
      have he : effectiveOf cfg exif = ∅ := by
        unfold effectiveOf
        rw [hraw]
        exact removeMarker_empty cfg
      rw [he, Finset.union_empty]
    · by_cases hskip : cfg.marker.isSome = true ∧ effectiveOf cfg exif = ∅ ∧
          (true : Bool) = true
      · obtain ⟨h1, h2, -⟩ := hskip
        rw [process_file_skip_empty_merge cfg exif env attr false sp hblk h1 h2, h2,
          Finset.union_empty]
      · have hne : effectiveOf cfg exif ≠ ∅ := by
          intro h0
          rcases hcm : cfg.marker with _ | m
          · apply hraw
            have heq : effectiveOf cfg exif = rawOf exif := removeMarker_none cfg hcm _
            rw [← heq]
            exact h0
          · exact hskip ⟨by rw [Option.isSome_iff_exists]; exact ⟨m, hcm⟩, h0, rfl⟩
        have hU : get_finder_tags attr ∪ effectiveOf cfg exif ≠ ∅ := by
          intro h0
          exact hne (Finset.union_eq_empty.mp h0).2
        rw [process_file_run cfg exif env attr false true sp hraw hblk hskip]
        show get_finder_tags
            (set_finder_tags env attr (get_finder_tags attr ∪ effectiveOf cfg exif)).attr = _
        exact read_after_write env attr _ hw hU hnlU
  exact ⟨hmain, hmain ▸ Finset.subset_union_left⟩

/-- Witness for `merge_final_is_union` at scenario A's inputs (result
{"Blue", "Animals|Cat", "Red"}). -/
theorem merge_final_is_union_witness :
    envOk.writeOk = true
  ∧ markerBlocks cfgSync (rawOf (.ok ⟨some ["sync", "Animals|Cat", "Red"], none⟩)) = false
  ∧ (∀ k ∈ effectiveOf cfgSync (.ok ⟨some ["sync", "Animals|Cat", "Red"], none⟩), noNL k)
  ∧ (get_finder_tags (process_file cfgSync (.ok ⟨some ["sync", "Animals|Cat", "Red"], none⟩)
        envOk (some {"Blue\n0"}) false true true).attr
      = get_finder_tags (some {"Blue\n0"} : TagAttr)
          ∪ effectiveOf cfgSync (.ok ⟨some ["sync", "Animals|Cat", "Red"], none⟩)
    ∧ get_finder_tags (some {"Blue\n0"} : TagAttr)
      ⊆ get_finder_tags (process_file cfgSync (.ok ⟨some ["sync", "Animals|Cat", "Red"], none⟩)
          envOk (some {"Blue\n0"}) false true true).attr) :=
  ⟨rfl, by decide, by decide,
    merge_final_is_union cfgSync (.ok ⟨some ["sync", "Animals|Cat", "Red"], none⟩) envOk
      (some {"Blue\n0"}) true rfl (by decide) (by decide)⟩

/-- C4: in replace mode (reconciliation reached: raw keywords non-empty and the
marker gate passed; succeeding xattr commands; newline-free keywords) the final
TagSet equals the EffectiveKeywordSet exactly, whatever the prior tags were, and
an empty EffectiveKeywordSet leaves the attribute absent. -/
theorem replace_mirrors_effective (cfg : Config) (exif : ExifOutcome) (env : WriteEnv)
    (attr : TagAttr) (sp : Bool)
    (hw : env.writeOk = true) (hc : env.clearOk = true)
    (hraw : rawOf exif ≠ ∅)
    (hblk : markerBlocks cfg (rawOf exif) = false)
    (hnl : ∀ k ∈ effectiveOf cfg exif, noNL k) :
    get_finder_tags (process_file cfg exif env attr false false sp).attr
      = effectiveOf cfg exif
  ∧ (effectiveOf cfg exif = ∅ →
      (process_file cfg exif env attr false false sp).attr = none) := by
  have hrun := process_file_run cfg exif env attr false false sp hraw hblk
    (fun h => Bool.false_ne_true h.2.2)
  rw [hrun]
  constructor
  · by_cases h0 : effectiveOf cfg exif = ∅
    · rw [reconcile_replace, h0, sft_empty, if_pos hc]
      rfl
    · rw [reconcile_replace]
      show get_finder_tags (set_finder_tags env attr (effectiveOf cfg exif)).attr = _
      exact read_after_write env attr _ hw h0 hnl
  · intro h0
    rw [reconcile_replace, h0, sft_empty]
    show (if env.clearOk then none else attr) = none
    rw [if_pos hc]

/-- Witness for `replace_mirrors_effective`: scenario B-like input, raw keywords
{"A|B"} with no marker, prior tags {"Blue"}, final tags exactly {"A|B"}. -/
theorem replace_mirrors_effective_witness :
    envOk.writeOk = true ∧ envOk.clearOk = true
  ∧ rawOf (.ok ⟨some ["A|B"], none⟩) ≠ ∅
  ∧ markerBlocks cfgNoMarker (rawOf (.ok ⟨some ["A|B"], none⟩)) = false
  ∧ (∀ k ∈ effectiveOf cfgNoMarker (.ok ⟨some ["A|B"], none⟩), noNL k)
  ∧ (get_finder_tags (process_file cfgNoMarker (.ok ⟨some ["A|B"], none⟩) envOk
        (some {"Blue\n0"}) false false true).attr
      = effectiveOf cfgNoMarker (.ok ⟨some ["A|B"], none⟩)
    ∧ (effectiveOf cfgNoMarker (.ok ⟨some ["A|B"], none⟩) = ∅ →
        (process_file cfgNoMarker (.ok ⟨some ["A|B"], none⟩) envOk
          (some {"Blue\n0"}) false false true).attr = none)) :=
  ⟨rfl, rfl, by decide, by decide, by decide,
    replace_mirrors_effective cfgNoMarker (.ok ⟨some ["A|B"], none⟩) envOk
      (some {"Blue\n0"}) true rfl rfl (by decide) (by decide) (by decide)⟩

/-- C3 amended: a file whose raw keyword set is empty is skipped with no TagStore
operation in both modes; a file whose raw keywords are non-empty and pass the
marker gate but whose EffectiveKeywordSet is empty is skipped in merge mode and
has its tag attribute removed in replace mode (when the clear command succeeds). -/
theorem empty_effective_behaviour (cfg : Config) (exif : ExifOutcome) (env : WriteEnv)
    (attr : TagAttr) (sp : Bool) (hc : env.clearOk = true) :
    (rawOf exif = ∅ → ∀ dry_run merge : Bool,
      process_file cfg exif env attr dry_run merge sp = ⟨true, ∅, attr, []⟩)
  ∧ (rawOf exif ≠ ∅ → markerBlocks cfg (rawOf exif) = false → effectiveOf cfg exif = ∅ →
      process_file cfg exif env attr false true sp = ⟨true, ∅, attr, []⟩
      ∧ (process_file cfg exif env attr false false sp).attr = none) := by
  constructor
  · intro hraw dry_run merge
    exact process_file_skip_raw cfg exif env attr dry_run merge sp hraw
  · intro hraw hblk h0
    have hsome : cfg.marker.isSome = true := by
      rcases hcm : cfg.marker with _ | m
      · exfalso
        apply hraw
        have heq : effectiveOf cfg exif = rawOf exif := removeMarker_none cfg hcm _
        rw [← heq]
        exact h0
      · rfl
    refine ⟨process_file_skip_empty_merge cfg exif env attr false sp hblk hsome h0, ?_⟩
    rw [process_file_run cfg exif env attr false false sp hraw hblk
      (fun h => Bool.false_ne_true h.2.2)]
    rw [reconcile_replace, h0, sft_empty]
    show (if env.clearOk then none else attr) = none
    rw [if_pos hc]

/-- Witness for `empty_effective_behaviour`: raw keywords {"sync"} (the marker
alone), prior tags {"Blue"}: merge mode skips, replace mode removes the tag
attribute. -/
theorem empty_effective_behaviour_witness :
    envOk.clearOk = true
  ∧ rawOf (.ok ⟨some ["sync"], none⟩) ≠ ∅
  ∧ markerBlocks cfgSync (rawOf (.ok ⟨some ["sync"], none⟩)) = false
  ∧ effectiveOf cfgSync (.ok ⟨some ["sync"], none⟩) = ∅
  ∧ (process_file cfgSync (.ok ⟨some ["sync"], none⟩) envOk (some {"Blue\n0"}) false true true
      = ⟨true, ∅, some {"Blue\n0"}, []⟩
    ∧ (process_file cfgSync (.ok ⟨some ["sync"], none⟩) envOk
        (some {"Blue\n0"}) false false true).attr = none) :=
  ⟨rfl, by decide, by decide, by decide,
    (empty_effective_behaviour cfgSync (.ok ⟨some ["sync"], none⟩) envOk
      (some {"Blue\n0"}) true rfl).2 (by decide) (by decide) (by decide)⟩

/-- C7 amended: with a configured marker, the EffectiveKeywordSet never contains
a keyword equal to the marker under case-insensitive comparison; consequently any
tag in a written tag set that equals the marker case-insensitively was already
among the file's existing Finder tags (merge mode re-unions existing tags, so a
pre-existing marker tag can survive, as the counterexample shows). -/
theorem marker_removed_before_write (cfg : Config) (exif : ExifOutcome) (env : WriteEnv)
    (attr : TagAttr) (dry_run merge sp : Bool) (m : String) (hm : cfg.marker = some m) :
    (∀ k ∈ effectiveOf cfg exif, ¬ lowerStr k = lowerStr m)
  ∧ (∀ ts : Finset String,
      TagOp.write ts ∈ (process_file cfg exif env attr dry_run merge sp).ops →
      ∀ t ∈ ts, lowerStr t = lowerStr m → t ∈ get_finder_tags attr) := by
  have heff : ∀ k ∈ effectiveOf cfg exif, ¬ lowerStr k = lowerStr m := by
    intro k hk
    rw [effectiveOf, removeMarker_some cfg m hm] at hk
    exact (Finset.mem_filter.mp hk).2
  refine ⟨heff, ?_⟩
  intro ts hts t ht hlow
  by_cases hraw : rawOf exif = ∅
  · rw [process_file_skip_raw cfg exif env attr dry_run merge sp hraw] at hts
    simp at hts
  · by_cases hblk : markerBlocks cfg (rawOf exif) = true
    · rw [process_file_skip_marker cfg exif env attr dry_run merge sp hblk] at hts
      simp at hts
    · have hblk' : markerBlocks cfg (rawOf exif) = false := by simpa using hblk
      by_cases hskip : cfg.marker.isSome = true ∧ effectiveOf cfg exif = ∅ ∧ merge = true
      · obtain ⟨h1, h2, h3⟩ := hskip
        subst h3
        rw [process_file_skip_empty_merge cfg exif env attr dry_run sp hblk' h1 h2] at hts
        simp at hts
      · rw [process_file_run cfg exif env attr dry_run merge sp hraw hblk' hskip] at hts
        cases merge with
        | true =>
          cases dry_run with
          | true =>
            rw [show reconcile env attr true true (effectiveOf cfg exif)
                = ⟨true, effectiveOf cfg exif, attr, [TagOp.read]⟩ from rfl] at hts
            simp at hts
          | false =>
            rw [reconcile_merge] at hts
            simp only [List.mem_cons, List.mem_singleton] at hts
            rcases hts with h | h
            · exact absurd h.symm (by simp)
            · rw [sft_op] at h
              by_cases hU : get_finder_tags attr ∪ effectiveOf cfg exif = ∅
              · rw [if_pos hU] at h
                exact absurd h.symm (by simp)
              · rw [if_neg hU] at h
                have hts2 : ts = get_finder_tags attr ∪ effectiveOf cfg exif := by
                  have := h.symm
                  simpa using this
                rw [hts2] at ht
                rcases Finset.mem_union.mp ht with h2 | h2
                · exact h2
                · exact absurd hlow (heff t h2)
        | false =>
          cases dry_run with
          | true =>
            rw [show reconcile env attr true false (effectiveOf cfg exif)
                = ⟨true, effectiveOf cfg exif, attr, []⟩ from rfl] at hts
            simp at hts
          | false =>
            rw [reconcile_replace] at hts
            simp only [List.mem_singleton] at hts
            rw [sft_op] at hts
            by_cases h0 : effectiveOf cfg exif = ∅
            · rw [if_pos h0] at hts
              exact absurd hts.symm (by simp)
            · rw [if_neg h0] at hts
              have hts2 : ts = effectiveOf cfg exif := by
                simpa using hts
              rw [hts2] at ht
              exact absurd hlow (heff t ht)

/-- Witness for `marker_removed_before_write`: replace mode with raw keywords
{"sync", "Red"}, marker "sync", prior tags {"Blue"}. -/
theorem marker_removed_before_write_witness :
    cfgSync.marker = some "sync"
  ∧ ((∀ k ∈ effectiveOf cfgSync (.ok ⟨some ["sync", "Red"], none⟩),
        ¬ lowerStr k = lowerStr "sync")
    ∧ (∀ ts : Finset String,
        TagOp.write ts ∈ (process_file cfgSync (.ok ⟨some ["sync", "Red"], none⟩) envOk
          (some {"Blue\n0"}) false false true).ops →
        ∀ t ∈ ts, lowerStr t = lowerStr "sync" →
          t ∈ get_finder_tags (some {"Blue\n0"} : TagAttr))) :=
  ⟨rfl, marker_removed_before_write cfgSync (.ok ⟨some ["sync", "Red"], none⟩) envOk
    (some {"Blue\n0"}) false false true "sync" rfl⟩
